import Mathlib

/-!
Verification of the retry-and-select engine (`sweagent/agent/reviewer.py`):
a shallow embedding of the reviewer, binary reviewer, grave-to-cradle
carrier and review loop, together with proofs of the specified properties.
-/

set_option linter.unusedVariables false

/-! ### Python string primitives

The source manipulates Python strings with `str.strip`, `str.split("\n")`,
`str.lower` and the `in` substring test.  We mirror those operations on the
character lists underlying Lean strings, using structural recursion so that
all of them evaluate inside the kernel. -/

/-- Python `s.split(c)` for a single-character separator: splits on every
occurrence of `c`, keeping empty pieces, and always returns at least one
piece. -/
def pySplitChar (c : Char) : List Char → List (List Char)
  | [] => [[]]
  | x :: xs =>
    match pySplitChar c xs with
    | [] => [[]]
    | y :: ys => if x = c then [] :: y :: ys else (x :: y) :: ys

/-- Python `s.strip()` on a character list: drop whitespace from both ends. -/
def pyStripList (l : List Char) : List Char :=
  ((l.dropWhile Char.isWhitespace).reverse.dropWhile Char.isWhitespace).reverse

/-- Python substring test `pat in s` on character lists. -/
def pyContainsList (pat : List Char) : List Char → Bool
  | [] => pat.isEmpty
  | x :: xs => pat.isPrefixOf (x :: xs) || pyContainsList pat xs

/-- Python `s.strip()`. -/
def pyStrip (s : String) : String := ⟨pyStripList s.data⟩

/-- Python `s.lower()` (ASCII case folding, which is all the source compares). -/
def pyLower (s : String) : String := ⟨s.data.map Char.toLower⟩

/-- Python `pat in s`. -/
def pyContains (s pat : String) : Bool := pyContainsList pat.data s.data

/-- Python `s.split("\n")`. -/
def pySplitNL (s : String) : List String := (pySplitChar '\n' s.data).map (fun l => ⟨l⟩)

/-- Python truthiness of an optional string (`not x` is true for a missing
value and for the empty string). -/
def pyFalsyStr : Option String → Bool
  | none => true
  | some s => s = ""

/-! ### Data model

`ReviewSubmission`, `ReviewerResult` and `BinaryReviewerResult` live in
`sweagent/types.py`; the fields embedded here are exactly the ones the engine
reads: the submission's `info["exit_status"]` and `info["submission"]`
entries (both optional strings) and the verdict records produced by the two
reviewers. -/

/-- A chat message (`{"role": ..., "content": ...}`) sent to the model. -/
structure Message where
  role : String
  content : String
deriving DecidableEq

/-- One finished attempt, as far as the engine inspects it:
`info.get("exit_status")` and `info.get("submission")`. -/
structure ReviewSubmission where
  exit_status : Option String
  submission : Option String
deriving DecidableEq

/-- Verdict of the single-submission reviewer. -/
structure ReviewerResult where
  accept : Bool
  output : String
  messages : List Message
deriving DecidableEq

/-- Verdict of the binary reviewer; `choice = false` encodes `0` (first
submission) and `choice = true` encodes `1` (second submission), matching the
`Literal[0, 1]` of the source. -/
structure BinaryReviewerResult where
  choice : Bool
  output : String
  messages : List Message
deriving DecidableEq

/-- Default used to totalize Python list indexing (`reviews[best_idx]`);
every indexing the engine performs is in range on reachable states, where
this default is never consulted. -/
def dummyReview : ReviewerResult := ⟨false, "", []⟩

/-! ### Reviewer (`Reviewer.interpret`, `Reviewer.review`)

Prompt construction (`format_messages`) renders Jinja templates; it is
abstracted as the message list `messages` the reviewer would send, and the
model as a function `query` from messages to the response text.  The second
component of `Reviewer.review`'s result counts how many times the model was
queried. -/

/-- The reviewer configuration.  Of its fields only `reject_exit_status`
influences control flow; the prompt templates and trajectory filters are
absorbed into the abstracted `messages` argument of `Reviewer.review`. -/
structure ReviewerConfig where
  reject_exit_status : Bool := true
deriving DecidableEq

/-- Embedding of `Reviewer.interpret`: take the last line of the stripped response,
strip it, and look for "success" / "fail" case-insensitively; anything
else is rejected. -/
def Reviewer.interpret (response : String) : Bool :=
  let last_line := pyStrip ((pySplitNL (pyStrip response)).getLastD "")
  if pyContains (pyLower last_line) "success" then true
  else if pyContains (pyLower last_line) "fail" then false
  else false

/-- Embedding of `Reviewer.review`: desk-reject on a missing/empty exit status, or (when
`reject_exit_status` is set) on a stripped exit status different from
"submitted"; otherwise query the model once and interpret the answer.
Returns the `ReviewerResult` together with the number of model queries
made. -/
def Reviewer.review (config : ReviewerConfig) (messages : List Message)
    (query : List Message → String) (sub : ReviewSubmission) :
    ReviewerResult × Nat :=
  if pyFalsyStr sub.exit_status then
    (⟨false, "No exit status in submission, will reject.", []⟩, 0)
  else if config.reject_exit_status = true ∧ pyStrip (sub.exit_status.getD "") ≠ "submitted" then
    (⟨false, "Submission desk-rejected because of exit status " ++ sub.exit_status.getD "" ++ ".", []⟩, 0)
  else
    let answer := query messages
    (⟨Reviewer.interpret answer, answer, messages⟩, 1)

/-! ### Review loop configuration (`ReviewLoopConfig`)

Only the numeric policy fields are embedded; the classname / sub-config
fields select which implementations to instantiate and play no role in the
engine logic verified here.  Python ints are embedded as `Int` and Python
floats (costs in dollars) as `ℚ`. -/

/-- The review loop configuration (defaults as in the source). -/
structure ReviewLoopConfig where
  max_samples : Int := 2
  min_draws : Int := 1
  max_accepted_draws : Int := 0
  max_n_consec_exit_cost : Int := 0
  attempt_cost_limit : ℚ := 0
  min_budget_for_new_attempt : ℚ := 0
deriving DecidableEq

/-- Embedding of `ReviewLoopConfig.validate`: the four consistency checks, in source
order, each raising `ValueError` with the given message. -/
def ReviewLoopConfig.validate (c : ReviewLoopConfig) : Except String Unit :=
  if c.min_draws < 1 then
    Except.error "`min_draws` must be at least 1"
  else if c.max_samples < 1 then
    Except.error "`max_samples` must be at least 1"
  else if c.max_samples < c.min_draws then
    Except.error "`max_samples` must be greater than or equal to `min_draws`"
  else if c.max_accepted_draws > c.min_draws then
    Except.error "`max_accepted_draws` must be less than or equal to `min_draws`, else it has no effect"
  else
    Except.ok ()

/-- Construction of a `ReviewLoopConfig`.  The class is a pydantic v2
`BaseModel`, whose `__init__` assigns the fields and invokes the
`model_post_init` hook if defined; the source instead defines
`__post_init__` (a dataclass hook pydantic never calls — the rest of this
codebase uses `model_post_init` for exactly this purpose), so construction
performs no consistency validation: it always succeeds with the given
field values. -/
def ReviewLoopConfig.construct (max_samples min_draws max_accepted_draws max_n_consec_exit_cost : Int)
    (attempt_cost_limit min_budget_for_new_attempt : ℚ) : ReviewLoopConfig :=
  ⟨max_samples, min_draws, max_accepted_draws, max_n_consec_exit_cost,
   attempt_cost_limit, min_budget_for_new_attempt⟩

/-- Modelled from the spec: the budget fields the engine samples from the
model object (`sweagent/agent/models.py`, not included under `src/`): the
instance cost limit, the cumulative instance cost spent
(`model.stats.instance_cost`), and whether the model is a human-operated
stand-in (`isinstance(model, HumanModel | HumanThoughtModel)`). -/
structure ModelInfo where
  instance_cost_limit : ℚ
  instance_cost : ℚ
  is_human : Bool
deriving DecidableEq

/-! ### Review loop state and transitions -/

/-- The mutable state owned by `ReviewLoop`: the cumulative submissions,
the parallel list of reviews, the comparison audit trail, the tracked best
index, and the consecutive cost-exit counter. -/
structure ReviewLoopState where
  submissions : List ReviewSubmission
  reviews : List ReviewerResult
  comparisons : List (Nat × Nat × BinaryReviewerResult)
  best_idx : Nat
  n_consec_exit_cost : Nat
deriving DecidableEq

/-- The state set up by `ReviewLoop.__init__`. -/
def ReviewLoop.initState : ReviewLoopState := ⟨[], [], [], 0, 0⟩

/-- Embedding of `ReviewLoop._n_samples`. -/
def ReviewLoopState.n_samples (st : ReviewLoopState) : Nat := st.submissions.length

/-- Embedding of `ReviewLoop._n_accepted` (`sum([r.accept for r in reviews])`). -/
def ReviewLoopState.n_accepted (st : ReviewLoopState) : Nat :=
  st.reviews.countP (fun r => r.accept)

/-- Embedding of `ReviewLoop._review`, after the reviewer has produced `review` for the
just-appended submission `sub`: append the review and update the
consecutive cost-exit counter from
`"exit_cost" in sub.info.get("exit_status", "").lower()`. -/
def ReviewLoop.reviewStep (review : ReviewerResult) (sub : ReviewSubmission)
    (st : ReviewLoopState) : ReviewLoopState :=
  let st' := { st with reviews := st.reviews ++ [review] }
  if pyContains (pyLower (sub.exit_status.getD "")) "exit_cost" then
    { st' with n_consec_exit_cost := st'.n_consec_exit_cost + 1 }
  else
    { st' with n_consec_exit_cost := 0 }

/-- Embedding of `ReviewLoop._compare`.  `hasBrev` records whether a binary reviewer is
configured, and `cres` is the verdict the binary reviewer would return if
invoked.  The second component instruments the oracle call: it is
`some (i, j)` exactly when `compare_submissions` was invoked, with `i` and
`j` the indices of the two submissions actually passed to it. -/
def ReviewLoop.compareStep (hasBrev : Bool) (cres : BinaryReviewerResult)
    (st : ReviewLoopState) : ReviewLoopState × Option (Nat × Nat) :=
  if hasBrev = false then
    ({ st with best_idx := st.n_samples - 1 }, none)
  else if st.n_samples < 2 then
    (st, none)
  else if (st.reviews.getD st.best_idx dummyReview).accept = true ∧
      (st.reviews.getLastD dummyReview).accept = false then
    (st, none)
  else if (st.reviews.getD st.best_idx dummyReview).accept = false ∧
      (st.reviews.getLastD dummyReview).accept = true then
    ({ st with best_idx := st.n_samples - 1 }, none)
  else
    ({ st with
        comparisons := st.comparisons ++ [(st.n_samples - 2, st.n_samples - 1, cres)],
        best_idx := if cres.choice then st.n_samples - 1 else st.best_idx },
     some (st.best_idx, st.n_samples - 1))

/-- Embedding of `ReviewLoop.on_submit`: append the submission, run the review step,
run the tournament update.  Returns the new state together with the
instrumented binary-reviewer call (see `ReviewLoop.compareStep`). -/
def ReviewLoop.on_submit (hasBrev : Bool) (review : ReviewerResult)
    (cres : BinaryReviewerResult) (st : ReviewLoopState) (sub : ReviewSubmission) :
    ReviewLoopState × Option (Nat × Nat) :=
  ReviewLoop.compareStep hasBrev cres
    (ReviewLoop.reviewStep review sub { st with submissions := st.submissions ++ [sub] })

/-- The control-flow signal raised by `on_model_query`. -/
inductive AttemptCostLimitExceededError where
  | mk
deriving DecidableEq

/-- Embedding of `ReviewLoop.on_model_query`: raise iff
`0 < attempt_cost_limit <= attempt_stats.instance_cost`; otherwise return
with the state untouched. -/
def ReviewLoop.on_model_query (cfg : ReviewLoopConfig) (attempt_instance_cost : ℚ)
    (st : ReviewLoopState) : Except AttemptCostLimitExceededError ReviewLoopState :=
  if 0 < cfg.attempt_cost_limit ∧ cfg.attempt_cost_limit ≤ attempt_instance_cost then
    Except.error AttemptCostLimitExceededError.mk
  else
    Except.ok st

/-- Embedding of `ReviewLoop.retry`: the five stop rules, in source order; `true` means
another attempt should be made. -/
def ReviewLoop.retry (cfg : ReviewLoopConfig) (model : ModelInfo)
    (st : ReviewLoopState) : Bool :=
  if (st.n_samples : Int) ≥ cfg.max_samples then false
  else if st.n_accepted ≠ 0 ∧ (st.n_samples : Int) ≥ cfg.min_draws then false
  else if (st.n_accepted : Int) ≥ cfg.max_accepted_draws ∧ cfg.max_accepted_draws > 0 then false
  else if (st.n_consec_exit_cost : Int) ≥ cfg.max_n_consec_exit_cost ∧ cfg.max_n_consec_exit_cost > 0 then false
  else if cfg.min_budget_for_new_attempt > 0 ∧
      model.instance_cost_limit - model.instance_cost < cfg.min_budget_for_new_attempt ∧
      model.is_human = false then false
  else true

/-- Embedding of `ReviewLoop.get_best`. -/
def ReviewLoop.get_best (st : ReviewLoopState) : Nat := st.best_idx

/-- The states reachable by an engine constructed with (`hasBrev = true`) or
without a binary reviewer, under arbitrary submissions and arbitrary
reviewer / binary-reviewer verdicts. -/
inductive ReviewLoop.Reachable (hasBrev : Bool) : ReviewLoopState → Prop where
  | init : ReviewLoop.Reachable hasBrev ReviewLoop.initState
  | step (st : ReviewLoopState) (review : ReviewerResult) (cres : BinaryReviewerResult)
      (sub : ReviewSubmission) :
      ReviewLoop.Reachable hasBrev st →
      ReviewLoop.Reachable hasBrev (ReviewLoop.on_submit hasBrev review cres st sub).1

/-! ### Grave-to-Cradle carrier -/

/-- Python `"\n\n".join`-style joining with an arbitrary separator. -/
def strJoin (sep : String) : List String → String
  | [] => ""
  | [x] => x
  | x :: y :: ys => x ++ sep ++ strJoin sep (y :: ys)

/-- The single key of the map returned by the carrier. -/
def failedVerdictsKey : String := "failed_verdicts_with_submissions"

/-- The header line of the forwarded message. -/
def gtcHeader : String := "The following previous submissions were deemed to be incorrect:"

/-- Embedding of `GraveToCradle.get_forwarded_vars`: `none` models the `assert` failing on
mismatched list lengths; otherwise the returned dictionary, as an
association list.  Rejected submissions whose `info["submission"]` is
missing or empty are skipped (the `continue`), but the header line is kept
whenever at least one review was rejected. -/
def GraveToCradle.get_forwarded_vars (submissions : List ReviewSubmission)
    (reviews : List ReviewerResult)
    (breviews : List (Nat × Nat × BinaryReviewerResult)) :
    Option (List (String × String)) :=
  if submissions.length = reviews.length then
    let failed_idxs := ((reviews.enum.filter (fun p => !p.2.accept)).map (fun p => p.1))
    if failed_idxs = [] then
      some [(failedVerdictsKey, "")]
    else
      let msg_lines := gtcHeader ::
        failed_idxs.enum.filterMap (fun p =>
          let info_sub := (submissions.getD p.2 ⟨none, none⟩).submission
          if pyFalsyStr info_sub then none
          else some ("Submission " ++ toString (p.1 + 1) ++ ":\n\n" ++ info_sub.getD "" ++
            "\n\nReview " ++ toString (p.1 + 1) ++ ":\n\n" ++ (reviews.getD p.2 dummyReview).output))
      some [(failedVerdictsKey, strJoin "\n\n" msg_lines)]
  else
    none


/-! ### Concrete runs used as inputs for witnesses and counterexamples -/

/-- A rejecting reviewer verdict with rationale `s`. -/
def rejectReview (s : String) : ReviewerResult := ⟨false, s, []⟩

/-- A binary-reviewer verdict choosing the first submission. -/
def chooseFirst : BinaryReviewerResult := ⟨false, "first", []⟩

/-- A normally submitted attempt. -/
def subOk : ReviewSubmission := ⟨some "submitted", none⟩

/-- Engine state after one rejected submission (binary reviewer configured). -/
def runState1 : ReviewLoopState :=
  (ReviewLoop.on_submit true (rejectReview "r1") chooseFirst ReviewLoop.initState subOk).1

/-- Engine state after two rejected submissions, the binary reviewer having
chosen the first in the one comparison made. -/
def runState2 : ReviewLoopState :=
  (ReviewLoop.on_submit true (rejectReview "r2") chooseFirst runState1 subOk).1

/-- Result of submitting a third rejected submission to `runState2`: at this
point the tracked best index is 0 and the newest submission has index 2. -/
def runResult3 : ReviewLoopState × Option (Nat × Nat) :=
  ReviewLoop.on_submit true (rejectReview "r3") chooseFirst runState2 subOk

/-! ### Helper lemmas -/

theorem reviewStep_submissions (review : ReviewerResult) (sub : ReviewSubmission)
    (st : ReviewLoopState) :
    (ReviewLoop.reviewStep review sub st).submissions = st.submissions := by
  unfold ReviewLoop.reviewStep
  dsimp only
  split <;> rfl

theorem reviewStep_reviews (review : ReviewerResult) (sub : ReviewSubmission)
    (st : ReviewLoopState) :
    (ReviewLoop.reviewStep review sub st).reviews = st.reviews ++ [review] := by
  unfold ReviewLoop.reviewStep
  dsimp only
  split <;> rfl

theorem reviewStep_best_idx (review : ReviewerResult) (sub : ReviewSubmission)
    (st : ReviewLoopState) :
    (ReviewLoop.reviewStep review sub st).best_idx = st.best_idx := by
  unfold ReviewLoop.reviewStep
  dsimp only
  split <;> rfl

theorem on_submit_eq (hasBrev : Bool) (review : ReviewerResult)
    (cres : BinaryReviewerResult) (st : ReviewLoopState) (sub : ReviewSubmission) :
    ReviewLoop.on_submit hasBrev review cres st sub =
      ReviewLoop.compareStep hasBrev cres
        (ReviewLoop.reviewStep review sub { st with submissions := st.submissions ++ [sub] }) :=
  rfl

/-! ### C3 — configuration validation never runs at construction -/

/-- C3: the claim says an inconsistent configuration raises a validation
error at construction time; in the code `validate` would indeed reject the
configuration, but it is wired to `__post_init__`, which pydantic v2 never
invokes on a `BaseModel`, so construction of e.g. `min_draws = 0` succeeds
silently.  This theorem evaluates the code at that failing input:
construction returns the inconsistent configuration while `validate`
rejects it. -/
theorem config_construction_skips_validation :
    ReviewLoopConfig.construct 2 0 0 0 0 0 =
      { max_samples := 2, min_draws := 0, max_accepted_draws := 0,
        max_n_consec_exit_cost := 0, attempt_cost_limit := 0,
        min_budget_for_new_attempt := 0 } ∧
    ReviewLoopConfig.validate (ReviewLoopConfig.construct 2 0 0 0 0 0) =
      Except.error "`min_draws` must be at least 1" :=
  ⟨rfl, rfl⟩

/-! ### C2 — the comparison record's left index is stale -/

/-- C2: the claim says each appended comparison record is
`(best_index, newest_index, result)`, with the left index equal to the index
of the best submission actually passed to the comparator.  The code instead
records `(n_samples - 2, n_samples - 1, result)`.  On a run of three
rejected submissions where the comparator keeps choosing the first, the
third `on_submit` passes submissions `(0, 2)` to the comparator (witnessed
by the instrumented call `some (0, 2)`) but appends the record `(1, 2, _)`:
the recorded left index `1` is not the compared best index `0`. -/
theorem compare_record_left_index_stale :
    runResult3.2 = some (0, 2) ∧
    runResult3.1.comparisons = [(0, 1, chooseFirst), (1, 2, chooseFirst)] ∧
    (1 : Nat) ≠ 0 := by
  refine ⟨?_, ?_, by decide⟩ <;> decide

/-! ### C5 — Reviewer.review desk rejection and oracle interpretation -/

/-- C5 counterexample: the claim desk-rejects whenever the exit status is not
exactly the string "submitted"; the code strips whitespace first.  With exit
status `" submitted"` (not exactly `"submitted"`) and `reject_exit_status`
set, the code does not desk-reject: it queries the oracle (one call), sends
non-empty prompt messages, and here even accepts. -/
theorem review_desk_reject_needs_strip :
    some " submitted" ≠ some "submitted" ∧
    (Reviewer.review ⟨true⟩ [⟨"user", "p"⟩] (fun _ => "success") ⟨some " submitted", none⟩).2 = 1 ∧
    (Reviewer.review ⟨true⟩ [⟨"user", "p"⟩] (fun _ => "success") ⟨some " submitted", none⟩).1.accept = true ∧
    (Reviewer.review ⟨true⟩ [⟨"user", "p"⟩] (fun _ => "success") ⟨some " submitted", none⟩).1.messages ≠ [] := by
  refine ⟨by decide, ?_, ?_, by decide⟩ <;> decide

/-- C5 (amended): `Reviewer.review` desk-rejects without any oracle call —
accept false, empty messages — when the submission carries no exit-status
value (missing or empty), or when `reject_exit_status` is set and the exit
status, after stripping leading/trailing whitespace, is not equal to
"submitted"; on every other submission it queries the oracle exactly once,
sends the formatted messages, and accepts iff the last non-empty line of the
response contains "success" case-insensitively (anything else, including a
line containing "fail" or an uninterpretable line, is rejected — never an
error). -/
theorem review_spec (config : ReviewerConfig) (messages : List Message)
    (query : List Message → String) (sub : ReviewSubmission) :
    (pyFalsyStr sub.exit_status = true →
      Reviewer.review config messages query sub =
        (⟨false, "No exit status in submission, will reject.", []⟩, 0)) ∧
    (pyFalsyStr sub.exit_status = false →
      config.reject_exit_status = true →
      pyStrip (sub.exit_status.getD "") ≠ "submitted" →
      (Reviewer.review config messages query sub).1.accept = false ∧
      (Reviewer.review config messages query sub).1.messages = [] ∧
      (Reviewer.review config messages query sub).2 = 0) ∧
    (pyFalsyStr sub.exit_status = false →
      (config.reject_exit_status = false ∨ pyStrip (sub.exit_status.getD "") = "submitted") →
      (Reviewer.review config messages query sub).2 = 1 ∧
      (Reviewer.review config messages query sub).1.messages = messages ∧
      (Reviewer.review config messages query sub).1.output = query messages ∧
      ((Reviewer.review config messages query sub).1.accept = true ↔
        pyContains (pyLower (pyStrip ((pySplitNL (pyStrip (query messages))).getLastD "")))
          "success" = true)) := by
  refine ⟨fun h1 => ?_, fun h1 h2 h3 => ?_, fun h1 h2 => ?_⟩
  · unfold Reviewer.review
    rw [if_pos h1]
  · unfold Reviewer.review
    rw [if_neg (by simp [h1]), if_pos ⟨h2, h3⟩]
    exact ⟨rfl, rfl, rfl⟩
  · have hcond : ¬(config.reject_exit_status = true ∧
        pyStrip (sub.exit_status.getD "") ≠ "submitted") := by
      rcases h2 with h2 | h2 <;> simp [h2]
    unfold Reviewer.review
    rw [if_neg (by simp [h1]), if_neg hcond]
    refine ⟨rfl, rfl, rfl, ?_⟩
    unfold Reviewer.interpret
    dsimp only
    split
    · next h => exact iff_of_true rfl h
    · next h =>
      split
      · exact iff_of_false (by simp) h
      · exact iff_of_false (by simp) h

/-- C5 witness: on a normally submitted attempt the reviewer queries the
oracle exactly once. -/
theorem review_spec_witness :
    (Reviewer.review ⟨true⟩ [⟨"user", "p"⟩] (fun _ => "all tests pass: success")
      ⟨some "submitted", none⟩).2 = 1 :=
  ((review_spec ⟨true⟩ [⟨"user", "p"⟩] (fun _ => "all tests pass: success")
    ⟨some "submitted", none⟩).2.2 (by decide) (Or.inr (by decide))).1

/-! ### C7 — on_model_query raises iff the attempt cost limit is reached -/

/-- C7: `on_model_query` raises the attempt-cost-limit-exceeded signal iff a
positive per-attempt cost limit is configured and the attempt's accumulated
cost has reached or exceeded it; in every other case it returns normally
with the engine state unchanged. -/
theorem on_model_query_spec (cfg : ReviewLoopConfig) (attempt_instance_cost : ℚ)
    (st : ReviewLoopState) :
    (ReviewLoop.on_model_query cfg attempt_instance_cost st =
        Except.error AttemptCostLimitExceededError.mk ↔
      (0 < cfg.attempt_cost_limit ∧ cfg.attempt_cost_limit ≤ attempt_instance_cost)) ∧
    (∀ st', ReviewLoop.on_model_query cfg attempt_instance_cost st = Except.ok st' →
      st' = st) := by
  unfold ReviewLoop.on_model_query
  split
  · next h => exact ⟨iff_of_true rfl h, fun st' hc => by cases hc⟩
  · next h =>
    exact ⟨iff_of_false (by simp) h, fun st' hc => by cases hc; rfl⟩

/-- C7 witness: with a configured limit of 1 and attempt cost 2, the signal
is raised. -/
theorem on_model_query_spec_witness :
    ReviewLoop.on_model_query { attempt_cost_limit := 1 } 2 ReviewLoop.initState =
      Except.error AttemptCostLimitExceededError.mk :=
  (on_model_query_spec { attempt_cost_limit := 1 } 2 ReviewLoop.initState).1.mpr
    ⟨by norm_num, by norm_num⟩

/-! ### C8 — the forwarding key is always present -/

/-- C8: on empty inputs the carrier returns the forwarding key mapped to the
empty string, and on every input (with the asserted list parity) the result
is a map containing the forwarding key. -/
theorem gtc_forwarded_key_total :
    GraveToCradle.get_forwarded_vars [] [] [] = some [(failedVerdictsKey, "")] ∧
    ∀ (subs : List ReviewSubmission) (revs : List ReviewerResult)
      (brevs : List (Nat × Nat × BinaryReviewerResult)),
      subs.length = revs.length →
      ∃ v, GraveToCradle.get_forwarded_vars subs revs brevs =
        some [(failedVerdictsKey, v)] := by
  constructor
  · decide
  · intro subs revs brevs h
    unfold GraveToCradle.get_forwarded_vars
    rw [if_pos h]
    dsimp only
    split
    · exact ⟨"", rfl⟩
    · exact ⟨_, rfl⟩

/-- C8 witness: a run with one accepted submission still yields the key. -/
theorem gtc_forwarded_key_total_witness :
    ∃ v, GraveToCradle.get_forwarded_vars [⟨some "submitted", some "diff"⟩]
      [⟨true, "ok", []⟩] [] = some [(failedVerdictsKey, v)] :=
  gtc_forwarded_key_total.2 [⟨some "submitted", some "diff"⟩] [⟨true, "ok", []⟩] [] rfl

/-! ### C10 — a rejected review always produces the header -/

theorem strJoin_cons_data (sep x : String) (xs : List String) :
    ∃ t, (strJoin sep (x :: xs)).data = x.data ++ t := by
  cases xs with
  | nil => exact ⟨[], by simp [strJoin]⟩
  | cons y ys =>
    refine ⟨sep.data ++ (strJoin sep (y :: ys)).data, ?_⟩
    show (x ++ sep ++ strJoin sep (y :: ys)).data = _
    simp [String.data_append]

theorem enumFrom_filter_reject_ne_nil (revs : List ReviewerResult) (n : Nat)
    (h : ∃ r ∈ revs, r.accept = false) :
    (List.enumFrom n revs).filter (fun p => !p.2.accept) ≠ [] := by
  induction revs generalizing n with
  | nil => simp at h
  | cons r t ih =>
    simp only [List.enumFrom, List.filter_cons]
    by_cases hr : r.accept = true
    · have ht : ∃ x ∈ t, x.accept = false := by
        rcases h with ⟨x, hx, hacc⟩
        rcases List.mem_cons.mp hx with rfl | hx'
        · rw [hr] at hacc; cases hacc
        · exact ⟨x, hx', hacc⟩
      simpa [hr] using ih (n + 1) ht
    · simp [hr]

/-- C10: whenever at least one review is rejected, the carrier's value under
the forwarding key is a non-empty string beginning with the fixed header
line — even when every rejected submission lacks a final-answer value. -/
theorem gtc_rejected_header (subs : List ReviewSubmission) (revs : List ReviewerResult)
    (brevs : List (Nat × Nat × BinaryReviewerResult))
    (hlen : subs.length = revs.length)
    (hrej : ∃ r ∈ revs, r.accept = false) :
    ∃ msg, GraveToCradle.get_forwarded_vars subs revs brevs =
        some [(failedVerdictsKey, msg)] ∧
      gtcHeader.data.isPrefixOf msg.data = true ∧ msg ≠ "" := by
  have hne : ((revs.enum.filter (fun p => !p.2.accept)).map (fun p => p.1)) ≠ [] := by
    intro hc
    exact enumFrom_filter_reject_ne_nil revs 0 hrej (List.map_eq_nil_iff.mp hc)
  unfold GraveToCradle.get_forwarded_vars
  rw [if_pos hlen]
  dsimp only
  rw [if_neg hne]
  refine ⟨_, rfl, ?_, ?_⟩
  · obtain ⟨t, ht⟩ := strJoin_cons_data "\n\n" gtcHeader _
    rw [ht, List.isPrefixOf_iff_prefix]
    exact List.prefix_append _ _
  · intro hc
    obtain ⟨t, ht⟩ := strJoin_cons_data "\n\n" gtcHeader _
    rw [hc] at ht
    have hnil : gtcHeader.data ++ t = [] := ht.symm
    have hne2 : gtcHeader.data ≠ [] := by decide
    exact hne2 (List.append_eq_nil.mp hnil).1

/-- C10 witness: one rejected submission with no final-answer value yields a
message that is exactly the header, hence non-empty and header-prefixed. -/
theorem gtc_rejected_header_witness :
    ∃ msg, GraveToCradle.get_forwarded_vars [⟨some "submitted", none⟩]
        [⟨false, "bad", []⟩] [] = some [(failedVerdictsKey, msg)] ∧
      gtcHeader.data.isPrefixOf msg.data = true ∧ msg ≠ "" :=
  gtc_rejected_header [⟨some "submitted", none⟩] [⟨false, "bad", []⟩] [] rfl
    ⟨⟨false, "bad", []⟩, by simp, rfl⟩

/-! ### C1 — the retry stop rules -/

/-- C1: `retry` returns false iff at least one stop rule fires: (1) the
submission count has reached `max_samples`; (2) some review was accepted and
the submission count has reached `min_draws`; (3) `max_accepted_draws > 0`
and enough reviews were accepted; (4) `max_n_consec_exit_cost > 0` and the
consecutive cost-exit counter has reached it; (5) a positive
`min_budget_for_new_attempt` exceeds the remaining budget and the model is
not a human-operated stand-in.  Otherwise `retry` returns true.  In
particular, when the submission count equals `max_samples`, `retry` is
false. -/
theorem retry_false_iff (cfg : ReviewLoopConfig) (model : ModelInfo)
    (st : ReviewLoopState) :
    (ReviewLoop.retry cfg model st = false ↔
      ((st.n_samples : Int) ≥ cfg.max_samples ∨
        (0 < st.n_accepted ∧ (st.n_samples : Int) ≥ cfg.min_draws) ∨
        (cfg.max_accepted_draws > 0 ∧ (st.n_accepted : Int) ≥ cfg.max_accepted_draws) ∨
        (cfg.max_n_consec_exit_cost > 0 ∧
          (st.n_consec_exit_cost : Int) ≥ cfg.max_n_consec_exit_cost) ∨
        (cfg.min_budget_for_new_attempt > 0 ∧
          model.instance_cost_limit - model.instance_cost < cfg.min_budget_for_new_attempt ∧
          model.is_human = false))) ∧
    ((st.n_samples : Int) = cfg.max_samples → ReviewLoop.retry cfg model st = false) := by
  have main : ReviewLoop.retry cfg model st = false ↔
      ((st.n_samples : Int) ≥ cfg.max_samples ∨
        (0 < st.n_accepted ∧ (st.n_samples : Int) ≥ cfg.min_draws) ∨
        (cfg.max_accepted_draws > 0 ∧ (st.n_accepted : Int) ≥ cfg.max_accepted_draws) ∨
        (cfg.max_n_consec_exit_cost > 0 ∧
          (st.n_consec_exit_cost : Int) ≥ cfg.max_n_consec_exit_cost) ∨
        (cfg.min_budget_for_new_attempt > 0 ∧
          model.instance_cost_limit - model.instance_cost < cfg.min_budget_for_new_attempt ∧
          model.is_human = false)) := by
    unfold ReviewLoop.retry
    by_cases h1 : (st.n_samples : Int) ≥ cfg.max_samples
    · rw [if_pos h1]
      exact iff_of_true rfl (Or.inl h1)
    · rw [if_neg h1]
      by_cases h2 : st.n_accepted ≠ 0 ∧ (st.n_samples : Int) ≥ cfg.min_draws
      · rw [if_pos h2]
        exact iff_of_true rfl (Or.inr (Or.inl ⟨Nat.pos_of_ne_zero h2.1, h2.2⟩))
      · rw [if_neg h2]
        by_cases h3 : (st.n_accepted : Int) ≥ cfg.max_accepted_draws ∧ cfg.max_accepted_draws > 0
        · rw [if_pos h3]
          exact iff_of_true rfl (Or.inr (Or.inr (Or.inl ⟨h3.2, h3.1⟩)))
        · rw [if_neg h3]
          by_cases h4 : (st.n_consec_exit_cost : Int) ≥ cfg.max_n_consec_exit_cost ∧
              cfg.max_n_consec_exit_cost > 0
          · rw [if_pos h4]
            exact iff_of_true rfl (Or.inr (Or.inr (Or.inr (Or.inl ⟨h4.2, h4.1⟩))))
          · rw [if_neg h4]
            by_cases h5 : cfg.min_budget_for_new_attempt > 0 ∧
                model.instance_cost_limit - model.instance_cost < cfg.min_budget_for_new_attempt ∧
                model.is_human = false
            · rw [if_pos h5]
              exact iff_of_true rfl (Or.inr (Or.inr (Or.inr (Or.inr h5))))
            · rw [if_neg h5]
              refine iff_of_false (by simp) ?_
              rintro (h | h | h | h | h)
              · exact h1 h
              · exact h2 ⟨Nat.pos_iff_ne_zero.mp h.1, h.2⟩
              · exact h3 ⟨h.2, h.1⟩
              · exact h4 ⟨h.2, h.1⟩
              · exact h5 h
  exact ⟨main, fun h => main.mpr (Or.inl (le_of_eq h.symm))⟩

/-- C1 witness: with `max_samples = 1` and one submission, `retry` is
false. -/
theorem retry_false_iff_witness :
    ReviewLoop.retry { max_samples := 1 } ⟨0, 0, false⟩
      ⟨[subOk], [rejectReview "r"], [], 0, 0⟩ = false :=
  (retry_false_iff { max_samples := 1 } ⟨0, 0, false⟩
    ⟨[subOk], [rejectReview "r"], [], 0, 0⟩).2 (by decide)

/-! ### Tournament-update case lemmas and the engine invariant -/

theorem compareStep_cases (hasBrev : Bool) (cres : BinaryReviewerResult)
    (st : ReviewLoopState) :
    ((ReviewLoop.compareStep hasBrev cres st).1.submissions = st.submissions ∧
      (ReviewLoop.compareStep hasBrev cres st).1.reviews = st.reviews) ∧
    ((ReviewLoop.compareStep hasBrev cres st).1.best_idx = st.best_idx ∨
      (ReviewLoop.compareStep hasBrev cres st).1.best_idx = st.n_samples - 1) := by
  unfold ReviewLoop.compareStep
  split
  · exact ⟨⟨rfl, rfl⟩, Or.inr rfl⟩
  · split
    · exact ⟨⟨rfl, rfl⟩, Or.inl rfl⟩
    · split
      · exact ⟨⟨rfl, rfl⟩, Or.inl rfl⟩
      · split
        · exact ⟨⟨rfl, rfl⟩, Or.inr rfl⟩
        · refine ⟨⟨rfl, rfl⟩, ?_⟩
          by_cases hc : cres.choice = true
          · exact Or.inr (by simp [hc])
          · exact Or.inl (by simp [hc])

theorem compareStep_no_brev (cres : BinaryReviewerResult) (st : ReviewLoopState) :
    ReviewLoop.compareStep false cres st = ({ st with best_idx := st.n_samples - 1 }, none) := by
  unfold ReviewLoop.compareStep
  rw [if_pos rfl]

theorem compareStep_small (cres : BinaryReviewerResult) (st : ReviewLoopState)
    (h : st.n_samples < 2) :
    ReviewLoop.compareStep true cres st = (st, none) := by
  unfold ReviewLoop.compareStep
  rw [if_neg (by simp), if_pos h]

theorem compareStep_keep (cres : BinaryReviewerResult) (st : ReviewLoopState)
    (h2 : 2 ≤ st.n_samples)
    (ha : (st.reviews.getD st.best_idx dummyReview).accept = true)
    (hl : (st.reviews.getLastD dummyReview).accept = false) :
    ReviewLoop.compareStep true cres st = (st, none) := by
  unfold ReviewLoop.compareStep
  rw [if_neg (by simp), if_neg (by omega), if_pos ⟨ha, hl⟩]

theorem compareStep_promote (cres : BinaryReviewerResult) (st : ReviewLoopState)
    (h2 : 2 ≤ st.n_samples)
    (ha : (st.reviews.getD st.best_idx dummyReview).accept = false)
    (hl : (st.reviews.getLastD dummyReview).accept = true) :
    ReviewLoop.compareStep true cres st = ({ st with best_idx := st.n_samples - 1 }, none) := by
  have h3 : ¬((st.reviews.getD st.best_idx dummyReview).accept = true ∧
      (st.reviews.getLastD dummyReview).accept = false) := by
    rintro ⟨x, y⟩
    rw [ha] at x
    cases x
  unfold ReviewLoop.compareStep
  rw [if_neg (by simp), if_neg (by omega), if_neg h3, if_pos ⟨ha, hl⟩]

theorem compareStep_oracle (cres : BinaryReviewerResult) (st : ReviewLoopState)
    (h2 : 2 ≤ st.n_samples)
    (heq : (st.reviews.getD st.best_idx dummyReview).accept =
      (st.reviews.getLastD dummyReview).accept) :
    ReviewLoop.compareStep true cres st =
      ({ st with
          comparisons := st.comparisons ++ [(st.n_samples - 2, st.n_samples - 1, cres)],
          best_idx := if cres.choice then st.n_samples - 1 else st.best_idx },
        some (st.best_idx, st.n_samples - 1)) := by
  have h3 : ¬((st.reviews.getD st.best_idx dummyReview).accept = true ∧
      (st.reviews.getLastD dummyReview).accept = false) := by
    rintro ⟨x, y⟩
    rw [heq] at x
    rw [x] at y
    cases y
  have h4 : ¬((st.reviews.getD st.best_idx dummyReview).accept = false ∧
      (st.reviews.getLastD dummyReview).accept = true) := by
    rintro ⟨x, y⟩
    rw [heq] at x
    rw [x] at y
    cases y
  unfold ReviewLoop.compareStep
  rw [if_neg (by simp), if_neg (by omega), if_neg h3, if_neg h4]

theorem reachable_parity_best (hasBrev : Bool) (st : ReviewLoopState)
    (h : ReviewLoop.Reachable hasBrev st) :
    st.submissions.length = st.reviews.length ∧
      (st.best_idx = 0 ∨ st.best_idx < st.submissions.length) := by
  induction h with
  | init => exact ⟨rfl, Or.inl rfl⟩
  | step st review cres sub hr ih =>
    obtain ⟨hlen, hbest⟩ := ih
    rw [on_submit_eq]
    set st2 := ReviewLoop.reviewStep review sub
      { st with submissions := st.submissions ++ [sub] } with hst2
    have hsub2 : st2.submissions = st.submissions ++ [sub] := by
      rw [hst2, reviewStep_submissions]
    have hrev2 : st2.reviews = st.reviews ++ [review] := by
      rw [hst2, reviewStep_reviews]
    have hb2 : st2.best_idx = st.best_idx := by
      rw [hst2, reviewStep_best_idx]
    have hn2 : st2.n_samples = st.submissions.length + 1 := by
      unfold ReviewLoopState.n_samples
      rw [hsub2]
      simp
    obtain ⟨⟨hs, hv⟩, hb⟩ := compareStep_cases hasBrev cres st2
    constructor
    · rw [hs, hv, hsub2, hrev2]
      simp [hlen]
    · rcases hb with hb | hb
      · rw [hb, hb2, hs, hsub2]
        rcases hbest with h0 | hlt
        · exact Or.inl h0
        · refine Or.inr ?_
          simp only [List.length_append, List.length_singleton]
          omega
      · rw [hb, hs, hsub2, hn2]
        refine Or.inr ?_
        simp only [List.length_append, List.length_singleton]
        omega

/-! ### C6 — parity invariant; the best-index range claim fails at init -/

/-- C6 counterexample: the claim extends the best-index range invariant to
the moment right after construction; but the initial state (reachable, with
a binary reviewer configured) has best index 0 and zero submissions, so the
best index does not lie in `[0, len(submissions))` there. -/
theorem best_idx_out_of_range_initially :
    ReviewLoop.Reachable true ReviewLoop.initState ∧
    ¬ ReviewLoop.initState.best_idx < ReviewLoop.initState.submissions.length :=
  ⟨ReviewLoop.Reachable.init, by decide⟩

/-- C6 (amended): on every reachable state the submissions and reviews lists
have equal length, and once at least one submission exists the best index
lies within `[0, len(submissions))`; immediately after construction the
best index is 0 while the submissions list is still empty. -/
theorem parity_and_best_in_range (hasBrev : Bool) (st : ReviewLoopState)
    (h : ReviewLoop.Reachable hasBrev st) :
    st.submissions.length = st.reviews.length ∧
      (st.submissions ≠ [] → st.best_idx < st.submissions.length) := by
  obtain ⟨h1, h2⟩ := reachable_parity_best hasBrev st h
  refine ⟨h1, fun hne => ?_⟩
  have hpos : 0 < st.submissions.length := List.length_pos.mpr hne
  rcases h2 with h0 | hlt
  · omega
  · exact hlt

/-- C6 witness: the invariant, evaluated on the state after one submission. -/
theorem parity_and_best_in_range_witness :
    runState1.submissions.length = runState1.reviews.length ∧
      (runState1.submissions ≠ [] → runState1.best_idx < runState1.submissions.length) :=
  parity_and_best_in_range true runState1
    (ReviewLoop.Reachable.step ReviewLoop.initState (rejectReview "r1") chooseFirst subOk
      ReviewLoop.Reachable.init)

/-! ### C4 — the tournament update's best-index postcondition -/

/-- C4: after `on_submit` returns, the best index is: the newest
submission's index when no binary reviewer is configured; 0 when a binary
reviewer is configured but fewer than two submissions exist; unchanged (with
no oracle comparison) when the current best's review was accepted and the
newest rejected; the newest index (with no oracle comparison) when the
current best's review was rejected and the newest accepted; and otherwise
whichever of (current best, newest) the binary reviewer chose, the
comparison being on exactly that pair. -/
theorem on_submit_best_selection (hasBrev : Bool) (review : ReviewerResult)
    (cres : BinaryReviewerResult) (st : ReviewLoopState) (sub : ReviewSubmission)
    (h : ReviewLoop.Reachable hasBrev st) :
    (hasBrev = false →
      (ReviewLoop.on_submit hasBrev review cres st sub).1.best_idx = st.submissions.length ∧
      (ReviewLoop.on_submit hasBrev review cres st sub).2 = none) ∧
    (hasBrev = true → st.submissions.length + 1 < 2 →
      (ReviewLoop.on_submit hasBrev review cres st sub).1.best_idx = 0 ∧
      (ReviewLoop.on_submit hasBrev review cres st sub).2 = none) ∧
    (hasBrev = true → 2 ≤ st.submissions.length + 1 →
      ((((st.reviews ++ [review]).getD st.best_idx dummyReview).accept = true →
          review.accept = false →
        (ReviewLoop.on_submit hasBrev review cres st sub).1.best_idx = st.best_idx ∧
        (ReviewLoop.on_submit hasBrev review cres st sub).2 = none) ∧
      (((st.reviews ++ [review]).getD st.best_idx dummyReview).accept = false →
          review.accept = true →
        (ReviewLoop.on_submit hasBrev review cres st sub).1.best_idx = st.submissions.length ∧
        (ReviewLoop.on_submit hasBrev review cres st sub).2 = none) ∧
      (((st.reviews ++ [review]).getD st.best_idx dummyReview).accept = review.accept →
        (ReviewLoop.on_submit hasBrev review cres st sub).1.best_idx =
          (if cres.choice = true then st.submissions.length else st.best_idx) ∧
        (ReviewLoop.on_submit hasBrev review cres st sub).2 =
          some (st.best_idx, st.submissions.length)))) := by
  obtain ⟨hlen, hbest⟩ := reachable_parity_best hasBrev st h
  rw [on_submit_eq]
  set st2 := ReviewLoop.reviewStep review sub
    { st with submissions := st.submissions ++ [sub] } with hst2
  have hsub2 : st2.submissions = st.submissions ++ [sub] := by
    rw [hst2, reviewStep_submissions]
  have hrev2 : st2.reviews = st.reviews ++ [review] := by
    rw [hst2, reviewStep_reviews]
  have hb2 : st2.best_idx = st.best_idx := by
    rw [hst2, reviewStep_best_idx]
  have hn2 : st2.n_samples = st.submissions.length + 1 := by
    unfold ReviewLoopState.n_samples
    rw [hsub2]
    simp
  have hA : st2.reviews.getD st2.best_idx dummyReview =
      (st.reviews ++ [review]).getD st.best_idx dummyReview := by
    rw [hrev2, hb2]
  have hL : st2.reviews.getLastD dummyReview = review := by
    rw [hrev2]
    exact List.getLastD_concat _ _ _
  refine ⟨fun hbf => ?_, fun hbt hsmall => ?_, fun hbt hbig => ?_⟩
  · subst hbf
    rw [compareStep_no_brev]
    refine ⟨?_, rfl⟩
    dsimp only
    rw [hn2]
    simp
  · subst hbt
    rw [compareStep_small cres st2 (by omega)]
    have h0 : st.best_idx = 0 := by
      rcases hbest with h0 | hlt
      · exact h0
      · omega
    exact ⟨by rw [hb2, h0], rfl⟩
  · subst hbt
    refine ⟨fun haT hrF => ?_, fun haF hrT => ?_, fun heq => ?_⟩
    · rw [compareStep_keep cres st2 (by omega) (by rw [hA]; exact haT)
        (by rw [hL]; exact hrF)]
      exact ⟨hb2, rfl⟩
    · rw [compareStep_promote cres st2 (by omega) (by rw [hA]; exact haF)
        (by rw [hL]; exact hrT)]
      refine ⟨?_, rfl⟩
      dsimp only
      rw [hn2]
      simp
    · rw [compareStep_oracle cres st2 (by omega) (by rw [hA, hL]; exact heq)]
      constructor
      · dsimp only
        rw [hn2, hb2]
        by_cases hc : cres.choice = true
        · simp [hc]
        · simp [hc]
      · dsimp only
        rw [hn2, hb2]
        simp

/-- C4 witness: the first submission to an engine with a binary reviewer
leaves the best index at 0 without an oracle comparison. -/
theorem on_submit_best_selection_witness :
    (ReviewLoop.on_submit true (rejectReview "r1") chooseFirst ReviewLoop.initState subOk).1.best_idx = 0 ∧
    (ReviewLoop.on_submit true (rejectReview "r1") chooseFirst ReviewLoop.initState subOk).2 = none :=
  (on_submit_best_selection true (rejectReview "r1") chooseFirst ReviewLoop.initState subOk
    ReviewLoop.Reachable.init).2.1 rfl (by decide)

/-! ### C9 — the best index only ever stays or moves to the newest -/

/-- C9: after any `on_submit`, the best index is either its previous value
or the index of the submission appended by that call; it never moves to any
other submission, whatever the verdicts. -/
theorem on_submit_best_monotone (hasBrev : Bool) (review : ReviewerResult)
    (cres : BinaryReviewerResult) (st : ReviewLoopState) (sub : ReviewSubmission) :
    (ReviewLoop.on_submit hasBrev review cres st sub).1.best_idx = st.best_idx ∨
    (ReviewLoop.on_submit hasBrev review cres st sub).1.best_idx = st.submissions.length := by
  rw [on_submit_eq]
  set st2 := ReviewLoop.reviewStep review sub
    { st with submissions := st.submissions ++ [sub] } with hst2
  have hb2 : st2.best_idx = st.best_idx := by
    rw [hst2, reviewStep_best_idx]
  have hn2 : st2.n_samples = st.submissions.length + 1 := by
    unfold ReviewLoopState.n_samples
    rw [hst2, reviewStep_submissions]
    simp
  obtain ⟨-, hb⟩ := compareStep_cases hasBrev cres st2
  rcases hb with hb | hb
  · exact Or.inl (by rw [hb, hb2])
  · exact Or.inr (by rw [hb, hn2]; simp)
